import Mathlib

/-
Shallow embedding of the go-mailer program (src/cmd/main.go): a bubbletea
terminal form with four text inputs (to, from, subject, body), focus cycling,
address validation on the two address fields, and a send action.

The event-dispatch core is translated directly from the source. The external
collaborators that are not part of this repository — the bubbles textinput
widget, the Go standard-library address parser, and the MessageSender
transport — are modelled from the spec, each marked in its doc comment.
-/

set_option maxRecDepth 4096

namespace GoMailer

/-- Error values in the Go source are plain message-bearing values created by
fmt.Errorf; they are modelled by their message string. -/
abbrev GoError := String

/-- The message of the error built at src/cmd/main.go line 60. -/
def invalidEmailMsg : GoError := "invalid email address"

/-- The log line emitted by sendMsg (src/cmd/main.go line 279). -/
def sendingLogMsg : String := "Sending message..."

/-- The log line emitted on Ctrl+C (src/cmd/main.go line 158). -/
def quittingLogMsg : String := "Quitting..."

/-- Field indices, from the iota constant block (src/cmd/main.go lines 35-40).
The Go names of indices 0 and 1 are `to` and `from`, reserved words in Lean,
hence `toIdx` and `fromIdx`. -/
def toIdx : Nat := 0

/-- Index of the from field (the Go constant `from`). -/
def fromIdx : Nat := 1

/-- Index of the subject field. -/
def subject : Nat := 2

/-- Index of the body field. -/
def body : Nat := 3

/-- Model of bubbles textinput.Model, the text-field widget the program
stores four of. Only the state the form logic touches is kept: static
configuration (placeholder, charLimit, width, prompt), the editable content
and cursor, the focus flag, and the cursor-blink flag flipped by tick
events. -/
structure TextInput where
  placeholder : String
  charLimit : Nat
  width : Nat
  prompt : String
  value : List Char
  cursor : Nat
  focus : Bool
  blink : Bool
deriving Repr, DecidableEq

instance : Inhabited TextInput :=
  ⟨{ placeholder := "", charLimit := 0, width := 0, prompt := "",
     value := [], cursor := 0, focus := false, blink := false }⟩

/-- Model of textinput.New(): an empty, unfocused input. -/
def TextInput.new : TextInput :=
  { placeholder := "", charLimit := 0, width := 0, prompt := "",
    value := [], cursor := 0, focus := false, blink := false }

/-- Content of the input as a string (textinput Value()). -/
def TextInput.valueStr (t : TextInput) : String :=
  String.mk t.value

/-- Key events relevant to the program: the control keys the Update switch
names, plus the editing keys (rune insertion covers typing and paste),
backspace, the cursor-movement keys, and escape. -/
inductive Key where
  | enter
  | tab
  | ctrlN
  | shiftTab
  | ctrlS
  | ctrlC
  | esc
  | runes (cs : List Char)
  | backspace
  | left
  | right
deriving Repr, DecidableEq

/-- Messages delivered by the event loop: key presses, the errMsg error
channel, and the cursor-blink tick. -/
inductive Msg where
  | key (k : Key)
  | err (e : GoError)
  | blinkTick
deriving Repr, DecidableEq

/-- Modelled from the spec: rune insertion of the bubbles textinput widget,
which is not part of this repository. Per the FieldSet dispatch contract the
event mutates only content and cursor; the paste or typed runes are inserted
at the cursor and truncated to the remaining character-limit space. -/
def TextInput.insertRunes (t : TextInput) (cs : List Char) : TextInput :=
  let room := t.charLimit - t.value.length
  let ins := cs.take room
  { t with value := t.value.take t.cursor ++ ins ++ t.value.drop t.cursor,
           cursor := t.cursor + ins.length }

/-- Modelled from the spec: backspace handling of the bubbles textinput
widget; deletes the character before the cursor when there is one. -/
def TextInput.deleteBeforeCursor (t : TextInput) : TextInput :=
  if t.cursor = 0 then t
  else { t with value := t.value.take (t.cursor - 1) ++ t.value.drop t.cursor,
                cursor := t.cursor - 1 }

/-- Modelled from the spec: the update function of the bubbles textinput
widget, which is not part of this repository. Per the spec (FieldSet
dispatch) a key event is handled only when the input is focused — an
unfocused input ignores it; control keys the form handles itself are not
bound in the widget; the blink tick only flips the blink flag. -/
def TextInput.update (t : TextInput) (msg : Msg) : TextInput :=
  match msg with
  | Msg.key k =>
    if t.focus then
      match k with
      | Key.runes cs => t.insertRunes cs
      | Key.backspace => t.deleteBeforeCursor
      | Key.left => { t with cursor := t.cursor - 1 }
      | Key.right => { t with cursor := min (t.cursor + 1) t.value.length }
      | _ => t
    else t
  | Msg.err _ => t
  | Msg.blinkTick => { t with blink := !t.blink }

/-- The main model (src/cmd/main.go lines 23-27): the slice of text inputs,
the focused index, and the last error. -/
structure Model where
  inputs : List TextInput
  focused : Nat
  err : Option GoError
deriving Repr, DecidableEq

/-- Modelled from the spec: the Go standard-library mail.ParseAddress used
by validateAddress is not part of this repository. Following the spec
validator contract — the text must parse as a single well-formed RFC 5322
mailbox address, the empty string is invalid — it is approximated as a
nonempty local part and a nonempty domain separated by exactly one at sign,
with no spaces. -/
def parseAddressOk (s : String) : Bool :=
  match s.toList.splitOn '@' with
  | [localPart, domain] =>
      !localPart.isEmpty && !domain.isEmpty && !s.toList.contains ' '
  | _ => false

/-- validateAddress (src/cmd/main.go lines 54-64): parses the focused input
content as an address and returns the invalid-email error on failure,
nothing on success. -/
def Model.validateAddress (m : Model) : Option GoError :=
  let c := m.inputs.getD m.focused default
  if parseAddressOk c.valueStr then none else some invalidEmailMsg

/-- initialModel (src/cmd/main.go lines 76-111): four fresh inputs with
their placeholders, char limit 50, width 50, empty prompt; only the to
input is focused; focused index 0; no error. -/
def initialModel : Model :=
  let toInput : TextInput :=
    { TextInput.new with placeholder := "Enter to address here...",
                         focus := true, charLimit := 50, width := 50,
                         prompt := "" }
  let fromInput : TextInput :=
    { TextInput.new with placeholder := "Enter from address here...",
                         charLimit := 50, width := 50, prompt := "" }
  let subjectInput : TextInput :=
    { TextInput.new with placeholder := "Enter subject here...",
                         charLimit := 50, width := 50, prompt := "" }
  let bodyInput : TextInput :=
    { TextInput.new with placeholder := "Send a message...",
                         charLimit := 50, width := 50, prompt := "" }
  { inputs := [toInput, fromInput, subjectInput, bodyInput],
    focused := 0,
    err := none }

/-- nextInput (src/cmd/main.go lines 265-269): advance the focused index,
wrapping. -/
def Model.nextInput (m : Model) : Model :=
  { m with focused := (m.focused + 1) % m.inputs.length }

/-- prevInput (src/cmd/main.go lines 272-276): retreat the focused index,
wrapping. The Go expression (focused - 1 + len) mod len on nonnegative
focused equals (focused + len - 1) mod len over Nat. -/
def Model.prevInput (m : Model) : Model :=
  { m with focused := (m.focused + m.inputs.length - 1) % m.inputs.length }

/-- Externally observable side effects of one update step. -/
inductive Effect where
  | log (line : String)
  | send (toAddr fromAddr subjectTxt bodyTxt : String)
deriving Repr, DecidableEq

/-- sendMsg (src/cmd/main.go lines 278-280) logs, and — modelled from the
spec, since the transport is an external collaborator outside this
repository — invokes MessageSender.Send with the four current field
contents in field order (to, from, subject, body). -/
def Model.sendMsg (m : Model) : List Effect :=
  [Effect.log sendingLogMsg,
   Effect.send (m.inputs.getD toIdx default).valueStr
     (m.inputs.getD fromIdx default).valueStr
     (m.inputs.getD subject default).valueStr
     (m.inputs.getD body default).valueStr]

/-- Result of one Update call: the new model, the effects performed, and
whether the returned command was tea.Quit (ending the program). -/
structure Step where
  model : Model
  effects : List Effect
  quit : Bool
deriving Repr, DecidableEq

/-- The blur-all-then-focus bookkeeping (src/cmd/main.go lines 162-168)
followed by forwarding the message to every input (lines 179-184): all
inputs are blurred, the input at the focused index is focused, and then
each input processes the message. -/
def Model.applyFocusAndForward (m : Model) (msg : Msg) : Model :=
  let blurred := m.inputs.map (fun t => { t with focus := false })
  let focusedSet :=
    blurred.set m.focused { blurred.getD m.focused default with focus := true }
  { m with inputs := focusedSet.map (fun t => t.update msg) }

/-- Update (src/cmd/main.go lines 118-188), translated branch by branch:
enter, tab and ctrl+n validate the address fields and advance focus;
shift+tab retreats; ctrl+s sends unless an error is set; ctrl+c quits; any
other key falls through to the focus bookkeeping and the forwarding loop;
an errMsg sets the error and returns; any other message (the blink tick)
skips the key switch and is only forwarded to the inputs. -/
def Model.update (m : Model) (msg : Msg) : Step :=
  match msg with
  | Msg.key k =>
    match k with
    | Key.enter | Key.tab | Key.ctrlN =>
      if m.focused = toIdx ∨ m.focused = fromIdx then
        let m1 : Model := { m with err := m.validateAddress }
        if m1.err.isSome then
          { model := m1, effects := [], quit := false }
        else
          { model := m1.nextInput.applyFocusAndForward msg,
            effects := [], quit := false }
      else
        { model := m.nextInput.applyFocusAndForward msg,
          effects := [], quit := false }
    | Key.shiftTab =>
      { model := m.prevInput.applyFocusAndForward msg,
        effects := [], quit := false }
    | Key.ctrlS =>
      if m.err.isSome then
        { model := m, effects := [], quit := false }
      else
        { model := m, effects := m.sendMsg, quit := true }
    | Key.ctrlC =>
      { model := m, effects := [Effect.log quittingLogMsg], quit := true }
    | _ =>
      { model := m.applyFocusAndForward msg, effects := [], quit := false }
  | Msg.err e =>
    { model := { m with err := some e }, effects := [], quit := false }
  | Msg.blinkTick =>
    { model := { m with inputs := m.inputs.map (fun t => t.update msg) },
      effects := [], quit := false }

/-- One program run: messages are consumed in order from the given state,
collecting effects, and the run ends at the first step whose command is
tea.Quit. -/
def run (m : Model) (msgs : List Msg) : List Effect :=
  match msgs with
  | [] => []
  | msg :: rest =>
    let s := m.update msg
    if s.quit then s.effects else s.effects ++ run s.model rest

/-- Number of MessageSender.Send invocations among a list of effects. -/
def sendCount : List Effect → Nat
  | [] => 0
  | Effect.send _ _ _ _ :: rest => sendCount rest + 1
  | _ :: rest => sendCount rest

/-- States reachable from the initial model by processing any message
sequence. -/
inductive Reachable : Model → Prop where
  | init : Reachable initialModel
  | step {m : Model} (h : Reachable m) (msg : Msg) :
      Reachable (m.update msg).model

/-- The focus invariant of the spec: four inputs, focused index in range,
and an input reports focus exactly when it sits at the focused index. -/
def focusInv (m : Model) : Prop :=
  m.inputs.length = 4 ∧ m.focused < 4 ∧
    ∀ i : Fin 4, ((m.inputs.getD i default).focus = true ↔ (i : Nat) = m.focused)

instance (m : Model) : Decidable (focusInv m) := by
  unfold focusInv
  infer_instance

/-- The spec-level validation-error type (spec section 3): a tagged reason
together with the offending field index. -/
inductive ValidationError where
  | invalidAddress (fieldIndex : Nat)
deriving Repr, DecidableEq

/-- Modelled from the spec words (design note, section 9): the generic Go
error value is represented at spec level as the tagged ValidationError
variant; the offending field of a validation error is the field that was
focused when validation ran. -/
def lastErrorAbs (m : Model) : Option ValidationError :=
  m.err.map (fun _ => ValidationError.invalidAddress m.focused)

/-- The invalid address of the spec testable property: not-an-address. -/
def notAnAddressStr : String := "not-an-address"

/-- A valid address for concrete runs: the a at b dot com address of the
spec end-to-end property. -/
def abAddr : String := "a@b.com"

/-- An arbitrary error value for concrete error-state runs. -/
def boomMsg : GoError := "boom"

/-- The initial model with the given content typed into the input at the
given index (content set directly, cursor at the end). -/
def withContent (m : Model) (i : Nat) (s : String) : Model :=
  let typed := { m.inputs.getD i default with value := s.toList, cursor := s.length }
  { m with inputs := m.inputs.set i typed }

/-- Concrete state: the initial model with not-an-address typed into the
to field. -/
def m6 : Model := withContent initialModel 0 notAnAddressStr

/-- Concrete state: the initial model with a valid address typed into the
to field. -/
def mValidTo : Model := withContent initialModel 0 abAddr

/-- Concrete state: focused on the subject field with an error set, as
produced by an errMsg followed by two shift+tab retreats. -/
def mSubjErr : Model := { initialModel with focused := 2, err := some boomMsg }

/-
Helper lemmas about the textinput widget model and the focus bookkeeping.
-/

/-- The widget update never changes the focus flag: focus is only changed by
the Blur and Focus calls of the form controller. -/
theorem TextInput.update_focus (t : TextInput) (msg : Msg) :
    (t.update msg).focus = t.focus := by
  cases msg with
  | key k =>
    cases h : t.focus with
    | false => simp [TextInput.update, h]
    | true =>
      cases k <;>
        simp [TextInput.update, h, TextInput.insertRunes,
          TextInput.deleteBeforeCursor] <;>
        split <;> simp [h]
  | err e => rfl
  | blinkTick => rfl

/-- An unfocused widget ignores key events entirely. -/
theorem TextInput.update_unfocused (t : TextInput) (k : Key) (h : t.focus = false) :
    t.update (Msg.key k) = t := by
  simp [TextInput.update, h]

/-- Forwarding a message to every input preserves every focus flag. -/
theorem getD_map_update_focus (l : List TextInput) (msg : Msg) (i : Nat) :
    ((l.map (fun (t : TextInput) => t.update msg)).getD i default).focus
      = (l.getD i default).focus := by
  rw [List.getD_eq_getElem?_getD, List.getD_eq_getElem?_getD, List.getElem?_map]
  cases hx : l[i]? <;> simp [TextInput.update_focus]

/-- The focus bookkeeping plus forwarding preserves the number of inputs. -/
theorem applyFocusAndForward_length (m : Model) (msg : Msg) :
    (m.applyFocusAndForward msg).inputs.length = m.inputs.length := by
  simp [Model.applyFocusAndForward]

/-- The focus bookkeeping plus forwarding keeps the focused index. -/
theorem applyFocusAndForward_focused (m : Model) (msg : Msg) :
    (m.applyFocusAndForward msg).focused = m.focused := rfl

/-- The focus bookkeeping plus forwarding keeps the error field. -/
theorem applyFocusAndForward_err (m : Model) (msg : Msg) :
    (m.applyFocusAndForward msg).err = m.err := rfl

/-- The default text input is unfocused. -/
theorem default_focus_false : (default : TextInput).focus = false := rfl

/-- After the blur-all / focus-one bookkeeping and forwarding of a key
event, an input at an index other than the focused one is the original
input blurred: a key event is ignored by an unfocused input. -/
theorem applyFocusAndForward_getElem_ne (m : Model) (k : Key) (j : Nat)
    (hj : j ≠ m.focused) :
    (m.applyFocusAndForward (Msg.key k)).inputs[j]?
      = (m.inputs[j]?).map (fun t => { t with focus := false }) := by
  unfold Model.applyFocusAndForward
  simp only
  rw [List.getElem?_map, List.getElem?_set_ne (fun h => hj h.symm),
    List.getElem?_map]
  cases hx : m.inputs[j]? with
  | none => rfl
  | some t =>
    simp only [Option.map_some']
    rw [TextInput.update_unfocused _ _ rfl]

/-- Content and cursor of a non-focused input survive the bookkeeping and
forwarding of a key event unchanged. -/
theorem applyFocusAndForward_getD_ne (m : Model) (k : Key) (j : Nat)
    (hj : j ≠ m.focused) :
    ((m.applyFocusAndForward (Msg.key k)).inputs.getD j default).value
        = (m.inputs.getD j default).value ∧
      ((m.applyFocusAndForward (Msg.key k)).inputs.getD j default).cursor
        = (m.inputs.getD j default).cursor := by
  rw [List.getD_eq_getElem?_getD, List.getD_eq_getElem?_getD,
    applyFocusAndForward_getElem_ne m k j hj]
  cases m.inputs[j]? with
  | none => exact ⟨rfl, rfl⟩
  | some t => exact ⟨rfl, rfl⟩

/-- After the blur-all / focus-one bookkeeping and forwarding of a key
event, an input reports focus exactly when it sits at the (in-range)
focused index. -/
theorem applyFocusAndForward_getD_focus (m : Model) (k : Key) (i : Nat)
    (hf : m.focused < m.inputs.length) :
    ((m.applyFocusAndForward (Msg.key k)).inputs.getD i default).focus
      = decide (i = m.focused) := by
  by_cases hi : i = m.focused
  · subst hi
    unfold Model.applyFocusAndForward
    simp only
    rw [List.getD_eq_getElem?_getD, List.getElem?_map,
      List.getElem?_set_eq_of_lt _ (by simpa using hf)]
    simp [TextInput.update_focus]
  · rw [List.getD_eq_getElem?_getD, applyFocusAndForward_getElem_ne]
    · cases m.inputs[i]? <;> simp [hi, default_focus_false]
    · exact hi

/-- The focus invariant is restored by the blur-all / focus-one bookkeeping
followed by forwarding, for any key event, given four inputs and an
in-range focused index. -/
theorem focusInv_applyFocusAndForward (m : Model) (k : Key)
    (hlen : m.inputs.length = 4) (hf : m.focused < 4) :
    focusInv (m.applyFocusAndForward (Msg.key k)) := by
  refine ⟨by simp [applyFocusAndForward_length, hlen], hf, ?_⟩
  intro i
  rw [applyFocusAndForward_getD_focus m k i (by rw [hlen]; exact hf)]
  simp [applyFocusAndForward_focused]

/-- One update step preserves the focus invariant: every branch of Update
either leaves inputs and focused index untouched or ends in the blur-all /
focus-one bookkeeping with an in-range focused index. -/
theorem focusInv_update (m : Model) (msg : Msg) (h : focusInv m) :
    focusInv (m.update msg).model := by
  obtain ⟨hlen, hfoc, hflag⟩ := h
  cases msg with
  | err e => exact ⟨hlen, hfoc, hflag⟩
  | blinkTick =>
    refine ⟨by simpa [Model.update] using hlen, hfoc, ?_⟩
    intro i
    rw [show (m.update Msg.blinkTick).model.inputs
        = m.inputs.map (fun (t : TextInput) => t.update Msg.blinkTick) from rfl]
    rw [getD_map_update_focus]
    exact hflag i
  | key k =>
    cases k with
    | enter =>
      simp only [Model.update]
      split
      · split
        · exact ⟨hlen, hfoc, hflag⟩
        · exact focusInv_applyFocusAndForward _ _ (by simpa [Model.nextInput] using hlen)
            (by simp [Model.nextInput, hlen]; omega)
      · exact focusInv_applyFocusAndForward _ _ (by simpa [Model.nextInput] using hlen)
          (by simp [Model.nextInput, hlen]; omega)
    | tab =>
      simp only [Model.update]
      split
      · split
        · exact ⟨hlen, hfoc, hflag⟩
        · exact focusInv_applyFocusAndForward _ _ (by simpa [Model.nextInput] using hlen)
            (by simp [Model.nextInput, hlen]; omega)
      · exact focusInv_applyFocusAndForward _ _ (by simpa [Model.nextInput] using hlen)
          (by simp [Model.nextInput, hlen]; omega)
    | ctrlN =>
      simp only [Model.update]
      split
      · split
        · exact ⟨hlen, hfoc, hflag⟩
        · exact focusInv_applyFocusAndForward _ _ (by simpa [Model.nextInput] using hlen)
            (by simp [Model.nextInput, hlen]; omega)
      · exact focusInv_applyFocusAndForward _ _ (by simpa [Model.nextInput] using hlen)
          (by simp [Model.nextInput, hlen]; omega)
    | shiftTab =>
      exact focusInv_applyFocusAndForward _ _ (by simpa [Model.prevInput] using hlen)
        (by simp [Model.prevInput, hlen]; omega)
    | ctrlS =>
      simp only [Model.update]
      split
      · exact ⟨hlen, hfoc, hflag⟩
      · exact ⟨hlen, hfoc, hflag⟩
    | ctrlC => exact ⟨hlen, hfoc, hflag⟩
    | esc => exact focusInv_applyFocusAndForward m _ hlen hfoc
    | runes cs => exact focusInv_applyFocusAndForward m _ hlen hfoc
    | backspace => exact focusInv_applyFocusAndForward m _ hlen hfoc
    | left => exact focusInv_applyFocusAndForward m _ hlen hfoc
    | right => exact focusInv_applyFocusAndForward m _ hlen hfoc

/-- sendCount distributes over append. -/
theorem sendCount_append (a b : List Effect) :
    sendCount (a ++ b) = sendCount a + sendCount b := by
  induction a with
  | nil => simp [sendCount]
  | cons e rest ih => cases e <;> simp [sendCount, ih] <;> omega

/-- A single update step performs at most one send, and a step whose
returned command is not tea.Quit performs none: the send branch is the only
one emitting a send effect and it returns tea.Quit. -/
theorem sendCount_update_le (m : Model) (msg : Msg) :
    sendCount (m.update msg).effects ≤ 1 ∧
      ((m.update msg).quit = false → sendCount (m.update msg).effects = 0) := by
  cases msg with
  | err e => exact ⟨by simp [Model.update, sendCount], fun _ => by
      simp [Model.update, sendCount]⟩
  | blinkTick => exact ⟨by simp [Model.update, sendCount], fun _ => by
      simp [Model.update, sendCount]⟩
  | key k =>
    cases k <;> simp only [Model.update] <;>
      (try split) <;> (try split) <;>
      simp [sendCount, Model.sendMsg]

/-- C1 (amended): MessageSender.Send is invoked at most once per program
run — every run, from any starting state, performs at most one send effect
— and a step only emits a send when lastError is null at that moment; prior
successful validation of the to and from contents is not required. -/
theorem c1_send_at_most_once_and_guarded :
    (∀ (m : Model) (msgs : List Msg), sendCount (run m msgs) ≤ 1) ∧
      (∀ (m : Model) (msg : Msg),
        0 < sendCount (m.update msg).effects → m.err = none) := by
  constructor
  · intro m msgs
    induction msgs generalizing m with
    | nil => simp [run, sendCount]
    | cons msg rest ih =>
      by_cases hq : (m.update msg).quit = true
      · simpa [run, hq] using (sendCount_update_le m msg).1
      · have hq' : (m.update msg).quit = false := by simpa using hq
        have h0 := (sendCount_update_le m msg).2 hq'
        simp [run, hq', sendCount_append, h0]
        exact ih (m.update msg).model
  · intro m msg hpos
    cases msg with
    | err e => simp [Model.update, sendCount] at hpos
    | blinkTick => simp [Model.update, sendCount] at hpos
    | key k =>
      cases k with
      | ctrlS =>
        cases he : m.err with
        | none => rfl
        | some e => simp [Model.update, he, sendCount] at hpos
      | enter =>
        simp only [Model.update] at hpos
        split at hpos
        · split at hpos <;> simp [sendCount] at hpos
        · simp [sendCount] at hpos
      | tab =>
        simp only [Model.update] at hpos
        split at hpos
        · split at hpos <;> simp [sendCount] at hpos
        · simp [sendCount] at hpos
      | ctrlN =>
        simp only [Model.update] at hpos
        split at hpos
        · split at hpos <;> simp [sendCount] at hpos
        · simp [sendCount] at hpos
      | shiftTab => simp [Model.update, sendCount] at hpos
      | ctrlC => simp [Model.update, sendCount] at hpos
      | esc => simp [Model.update, sendCount] at hpos
      | runes cs => simp [Model.update, sendCount] at hpos
      | backspace => simp [Model.update, sendCount] at hpos
      | left => simp [Model.update, sendCount] at hpos
      | right => simp [Model.update, sendCount] at hpos

/-- C1 witness: the one-step run consisting of the send keystroke performs
at most one send, and a step emitting a send has no error set. -/
theorem c1_send_at_most_once_and_guarded_witness :
    sendCount (run initialModel [Msg.key Key.ctrlS]) ≤ 1 ∧
      initialModel.err = none :=
  ⟨c1_send_at_most_once_and_guarded.1 initialModel [Msg.key Key.ctrlS],
   c1_send_at_most_once_and_guarded.2 initialModel (Msg.key Key.ctrlS)
     (by decide)⟩

/-- C1 counterexample: from the initial state the very first event, the
send keystroke, already reaches the MessageSender.Send call, although the
address validator has never run, and indeed both the to and the from
contents (empty strings) are rejected by it — refuting that a send reaches
the Send call only after validation has succeeded on both. -/
theorem c1_counterexample :
    sendCount (run initialModel [Msg.key Key.ctrlS]) = 1 ∧
      parseAddressOk ((initialModel.inputs.getD toIdx default).valueStr)
          = false ∧
      parseAddressOk ((initialModel.inputs.getD fromIdx default).valueStr)
          = false := by
  decide

/-- C2: on a successful send transition (lastError null), the program
performs exactly the send effect carrying the four current field contents
in field order (to, from, subject, body), after the log line, leaves the
model unchanged and returns the quit command — the terminal Sent state. -/
theorem c2_send_success (m : Model) (h : m.err = none) :
    m.update (Msg.key Key.ctrlS) =
      { model := m,
        effects := [Effect.log sendingLogMsg,
          Effect.send ((m.inputs.getD toIdx default).valueStr)
            ((m.inputs.getD fromIdx default).valueStr)
            ((m.inputs.getD subject default).valueStr)
            ((m.inputs.getD body default).valueStr)],
        quit := true } := by
  simp [Model.update, h, Model.sendMsg]

/-- C2 witness: the initial model has no error and the send keystroke
produces exactly the send step. -/
theorem c2_send_success_witness :
    initialModel.err = none ∧
      initialModel.update (Msg.key Key.ctrlS) =
        { model := initialModel, effects := initialModel.sendMsg,
          quit := true } :=
  ⟨rfl, by rw [c2_send_success initialModel rfl]; rfl⟩

/-- C3: in every state whose lastError is non-null, the send keystroke
performs no effect at all and returns the whole state unchanged with no
quit command. -/
theorem c3_send_blocked (m : Model) (e : GoError) (h : m.err = some e) :
    m.update (Msg.key Key.ctrlS)
      = { model := m, effects := [], quit := false } := by
  simp [Model.update, h]

/-- C3 witness: a concrete error state is left untouched by the send
keystroke. -/
theorem c3_send_blocked_witness :
    mSubjErr.update (Msg.key Key.ctrlS)
      = { model := mSubjErr, effects := [], quit := false } :=
  c3_send_blocked mSubjErr boomMsg rfl

/-- C4 counterexample: advancing from the subject field in a state with an
error set moves the focused index from 2 to 3 — focus successfully
advances — yet the error survives, refuting that lastError is cleared
whenever focus advances. -/
theorem c4_counterexample :
    (mSubjErr.update (Msg.key Key.enter)).model.focused = 3 ∧
      mSubjErr.focused = 2 ∧
      (mSubjErr.update (Msg.key Key.enter)).model.err = some boomMsg := by
  decide

/-- C4 (amended): lastError is cleared whenever focus advances from the to
or from field (there validation runs and must pass for focus to move);
advancing from the subject or body field changes focus without touching
lastError. -/
theorem c4_error_cleared_on_validated_advance (m : Model) (k : Key)
    (hk : k = Key.enter ∨ k = Key.tab ∨ k = Key.ctrlN) :
    ((m.focused = toIdx ∨ m.focused = fromIdx) →
        (m.update (Msg.key k)).model.focused ≠ m.focused →
        (m.update (Msg.key k)).model.err = none) ∧
      ((m.focused = subject ∨ m.focused = body) →
        (m.update (Msg.key k)).model.err = m.err) := by
  rcases hk with rfl | rfl | rfl
  all_goals
    constructor
    · intro hf hne
      cases hv : m.validateAddress with
      | some e => exact absurd (by simp [Model.update, hf, hv]) hne
      | none => simp [Model.update, hf, hv, Model.nextInput,
          Model.applyFocusAndForward]
    · intro hf
      have hne : ¬(m.focused = toIdx ∨ m.focused = fromIdx) := by
        rcases hf with hf | hf <;> rw [hf] <;> decide
      simp [Model.update, hne, Model.nextInput, Model.applyFocusAndForward]

/-- C4 witness: with a valid to address, the advance keystroke moves focus
and the resulting state has no error. -/
theorem c4_error_cleared_on_validated_advance_witness :
    (mValidTo.update (Msg.key Key.enter)).model.err = none :=
  (c4_error_cleared_on_validated_advance mValidTo Key.enter (Or.inl rfl)).1
    (Or.inl (by decide)) (by decide)

/-- C5 counterexample: the escape key from the initial state does not
return the quit command — the program keeps running — refuting that a quit
transition is triggered by either Ctrl+C or Esc. -/
theorem c5_counterexample :
    (initialModel.update (Msg.key Key.esc)).quit = false := by decide

/-- C5 (amended): Ctrl+C from every state — error set or not — returns the
quit command with the state unchanged, so the terminal Quit state is always
reachable via Ctrl+C; the escape key is not a quit key: it is forwarded as
an ordinary key and the program continues. -/
theorem c5_quit_via_ctrlC (m : Model) :
    m.update (Msg.key Key.ctrlC)
        = { model := m, effects := [Effect.log quittingLogMsg], quit := true } ∧
      (m.update (Msg.key Key.esc)).quit = false :=
  ⟨rfl, rfl⟩

/-- C6: advancing while focused on the to field whose content is
not-an-address leaves the focused index at 0 and sets lastError to the
invalid-address error; at spec level (where the generic error value is
represented as the tagged ValidationError of the focused field) this is
InvalidAddress with field index 0. -/
theorem c6_invalid_to_advance :
    (m6.update (Msg.key Key.enter)).model.focused = 0 ∧
      lastErrorAbs (m6.update (Msg.key Key.enter)).model
        = some (ValidationError.invalidAddress 0) ∧
      (m6.update (Msg.key Key.enter)).model.err = some invalidEmailMsg := by
  decide

/-- C7: every state reachable from the initial model satisfies the focus
invariant — four inputs, focused index below four, and an input reports
focus exactly when it sits at the focused index; the invariant holds
initially and is preserved by every event. -/
theorem c7_focus_invariant (m : Model) (h : Reachable m) : focusInv m := by
  induction h with
  | init => decide
  | step h msg ih => exact focusInv_update _ msg ih

/-- C7 witness: the state after one tab keystroke from the initial model is
reachable and satisfies the focus invariant. -/
theorem c7_focus_invariant_witness :
    focusInv ((initialModel.update (Msg.key Key.tab)).model) :=
  c7_focus_invariant _ (Reachable.step Reachable.init (Msg.key Key.tab))

/-- C8: an edit event — rune insertion (typing or paste), backspace, or a
cursor move — leaves the content and cursor of every input other than the
focused one unchanged, in every state: the blur-all / focus-one bookkeeping
runs before the forwarding loop, and an unfocused input ignores key
events. -/
theorem c8_edit_only_focused (m : Model) (k : Key) (j : Nat)
    (hk : (∃ cs, k = Key.runes cs) ∨ k = Key.backspace ∨ k = Key.left
      ∨ k = Key.right)
    (hj : j ≠ m.focused) :
    ((m.update (Msg.key k)).model.inputs.getD j default).value
        = (m.inputs.getD j default).value ∧
      ((m.update (Msg.key k)).model.inputs.getD j default).cursor
        = (m.inputs.getD j default).cursor := by
  have hred : (m.update (Msg.key k)).model
      = m.applyFocusAndForward (Msg.key k) := by
    rcases hk with ⟨cs, rfl⟩ | rfl | rfl | rfl <;> rfl
  rw [hred]
  exact applyFocusAndForward_getD_ne m k j hj

/-- C8 witness: a backspace in the initial state (focused index 0) leaves
the from input (index 1) untouched. -/
theorem c8_edit_only_focused_witness :
    ((initialModel.update (Msg.key Key.backspace)).model.inputs.getD 1
          default).value
        = (initialModel.inputs.getD 1 default).value ∧
      ((initialModel.update (Msg.key Key.backspace)).model.inputs.getD 1
          default).cursor
        = (initialModel.inputs.getD 1 default).cursor :=
  c8_edit_only_focused initialModel Key.backspace 1
    (Or.inr (Or.inl rfl)) (by decide)

/-- C9: a failed advance is atomic — when an advance keystroke on the to or
from field fails validation, Update returns immediately: the resulting step
is exactly the prior state with only the error field set, no effect is
performed, and the keystroke is not forwarded to any input. -/
theorem c9_failed_advance_atomic (m : Model) (k : Key) (e : GoError)
    (hk : k = Key.enter ∨ k = Key.tab ∨ k = Key.ctrlN)
    (hf : m.focused = toIdx ∨ m.focused = fromIdx)
    (hv : m.validateAddress = some e) :
    m.update (Msg.key k)
      = { model := { m with err := some e }, effects := [], quit := false } := by
  rcases hk with rfl | rfl | rfl <;> simp [Model.update, hf, hv]

/-- C9 witness: the failing advance on the not-an-address state changes
exactly the error field. -/
theorem c9_failed_advance_atomic_witness :
    m6.update (Msg.key Key.enter)
      = { model := { m6 with err := some invalidEmailMsg }, effects := [],
          quit := false } :=
  c9_failed_advance_atomic m6 Key.enter invalidEmailMsg (Or.inl rfl)
    (Or.inl (by decide)) (by decide)

/-- C10: an errMsg event sets the error field of the model to the carried
error value and returns immediately: focused index, every input and its
cursor are unchanged, no effect is performed, and the event is not
forwarded to any input. -/
theorem c10_errMsg_channel (m : Model) (e : GoError) :
    m.update (Msg.err e)
      = { model := { m with err := some e }, effects := [], quit := false } :=
  rfl

end GoMailer
